import Mathlib

/-!
Formal model of node-sharepoint-list-manager.

Shallow embedding of the repository's JavaScript sources:
`src/lib/sharepoint.js` (module-level functional API),
`src/lib/sharepoint/BaseClient.js` (BaseClient and ListClient classes) and
`src/app.js` (retry configuration).  JavaScript objects holding list items are
modelled as association lists from field names to values; promise resolution
and rejection are modelled with `Except`; the network is modelled as an
oracle supplying the responses the server would return, and every outgoing
request an operation would issue is recorded explicitly in its result.
-/

namespace SPListManager

/-- A JavaScript field value as it occurs in list records: a number, a string
or null.  An absent field is modelled by the key being absent from the
association list (JavaScript `undefined`). -/
inductive JVal where
  | vnum (n : Int)
  | vstr (s : String)
  | vnull
deriving DecidableEq, Repr

/-- A list record: a JavaScript object, modelled as an association list from
field names to values.  Keys are unique in well-formed records; lookup takes
the first occurrence, mirroring property access. -/
abbrev Record := List (String × JVal)

/-- Property access `item[k]`: `none` models JavaScript `undefined`. -/
def Record.getKey (r : Record) (k : String) : Option JVal :=
  match r.find? (fun kv => kv.1 = k) with
  | some kv => some kv.2
  | none => none

/-- Lodash `_.omit(item, keys)`: the record without the listed keys. -/
def Record.omitKeys (r : Record) (keys : List String) : Record :=
  r.filter (fun kv => !(keys.contains kv.1))

/-- Assignment `obj[k] = v`: replace the value at `k` if present, else append. -/
def Record.setKey (r : Record) (k : String) (v : JVal) : Record :=
  if r.any (fun kv => kv.1 = k) then
    r.map (fun kv => if kv.1 = k then (k, v) else kv)
  else
    r ++ [(k, v)]

/-- Lodash `_.merge(a, b)` on flat records: every key of `b` is assigned into
`a`, later sources overriding earlier ones (as in
`_.merge({}, { ID: matched }, item)` in both upsert implementations). -/
def Record.mergeR (a b : Record) : Record :=
  b.foldl (fun acc kv => acc.setKey kv.1 kv.2) a

/-- Error kinds the modelled code can surface.  `http` carries an opaque tag
identifying one concrete transport failure; `typeError` is a JavaScript
TypeError raised by an undefined property access; `authorization` is the
`X-RequestDigest` precondition failure thrown by `BaseClient._requireDigest`;
`validation` covers the explicit `throw new Error(...)` argument checks;
`stubExhausted` marks a walk that asks the response oracle for more responses
than it holds (unreachable under every theorem's premises). -/
inductive SPError where
  | http (tag : Nat)
  | typeError
  | authorization
  | validation (msg : String)
  | stubExhausted
deriving DecidableEq, Repr

/-- One page of results as returned by the server for an Items query:
`results` is `response.data.d.results` and `next` is `response.data.d.__next`
(`none` models the field being absent). -/
structure Page where
  results : List Record
  next : Option String
deriving DecidableEq, Repr

/-- The check `accessSafe(() => !_.isEmpty(response.data.d.__next), false)`
from `getAllItems`: more pages exist exactly when `__next` is present and
non-empty. -/
def morerecords (p : Page) : Bool :=
  match p.next with
  | none => false
  | some s => !(s.isEmpty)

/-- One loop iteration step of `getAllItems` (identical in
`src/lib/sharepoint.js` and in `ListClient.getAllItems`): the accumulated
records so far, together with the remaining server responses, are turned into
the promise outcome.  Each list element is the outcome of one
`getItems` call: an `Except.error` makes the loop reject with that error and
stop; an `Except.ok` page is concatenated onto the accumulator, after which,
if `__next` is non-empty, `allrecords.pop().ID` removes the last accumulated
record to derive the `$skiptoken` cursor (popping an empty accumulator is the
TypeError of reading `.ID` on `undefined`, caught by the surrounding
try/catch and rejected); when `__next` is empty the accumulator is resolved. -/
def getAllItemsWalk : List Record → List (Except SPError Page) → Except SPError (List Record)
  | _, [] => Except.error SPError.stubExhausted
  | _, (Except.error e) :: _ => Except.error e
  | acc, (Except.ok p) :: rest =>
      let acc2 := acc ++ p.results
      if morerecords p then
        if acc2 = [] then Except.error SPError.typeError
        else getAllItemsWalk acc2.dropLast rest
      else Except.ok acc2

/-- The entry point `getAllItems`, starting from the empty accumulator
(`allrecords = []`). -/
def getAllItems (responses : List (Except SPError Page)) : Except SPError (List Record) :=
  getAllItemsWalk [] responses

/-! Retry policy (src/app.js lines 95-160 and src/config/default.js). -/

/-- Retry configuration: `config.rax` from src/config/default.js merged into
the raxConfig in src/app.js.  `retry` is the total-retry cap (maxRetries) and
`noResponseRetries` the stricter cap the config documents for errors that do
not return a response. -/
structure RaxCfg where
  retry : Nat
  noResponseRetries : Nat
deriving DecidableEq, Repr

/-- The shipped retry configuration from src/config/default.js:
`config.rax.retry = 3` ("Retry 3 times on requests that return a response
(500, etc) before giving up") and `config.rax.noResponseRetries = 2`
("Retry twice on errors that don't return a response"). -/
def raxDefault : RaxCfg := ⟨3, 2⟩

/-- A transport failure as the shouldRetry callback in src/app.js sees it:
whether a server response was obtained (`err.response` present), whether the
message contains the string that marks a malformed non-JSON response, and how
the generic status-based classification of the retry library would rule on
it.  `tag` identifies the concrete error so that the surfaced error can be
compared with the originating one. -/
structure RErr where
  hasResponse : Bool
  nonJsonMessage : Bool
  retryableStatus : Bool
  tag : Nat
deriving DecidableEq, Repr

/-- Modelled from the spec: `rax.shouldRetryRequest` is the retry-axios
library's generic classification (not part of src/); per spec §4.2 step 3 it
is the generic "is this status retryable" rule over network-level errors and
the configured retryable HTTP status codes, represented here by the verdict
recorded on the error. -/
def shouldRetryRequest (e : RErr) : Bool := e.retryableStatus

/-- The custom shouldRetry callback from src/app.js (lines 112-153): stop when
`currentRetryAttempt >= retry`; stop when
`currentRetryAttempt >= noResponseRetries` (this second check does not
inspect whether the error carries a response); always retry when the message
says the request did not return JSON; otherwise defer to
`rax.shouldRetryRequest`. -/
def shouldRetry (cfg : RaxCfg) (currentRetryAttempt : Nat) (e : RErr) : Bool :=
  if cfg.retry ≤ currentRetryAttempt then false
  else if cfg.noResponseRetries ≤ currentRetryAttempt then false
  else if e.nonJsonMessage then true
  else if shouldRetryRequest e then true
  else false

/-- Modelled from the spec: the retry driver (the retry-axios library, not
part of src/) invokes the operation once and after each failure consults
shouldRetry with the current retry-attempt count (0 on the first failure); a
true verdict waits the backoff and re-invokes with the count incremented, a
false verdict surfaces the error unchanged.  For an operation that fails on
every attempt with the same error, `retryRunAux cfg e fuel attempt` is the
pair of the number of invocations performed from attempt count `attempt`
onward and the surfaced error. -/
def retryRunAux (cfg : RaxCfg) (e : RErr) : Nat → Nat → Nat × RErr
  | 0, _ => (1, e)
  | fuel + 1, attempt =>
      if shouldRetry cfg attempt e then
        let r := retryRunAux cfg e fuel (attempt + 1)
        (r.1 + 1, r.2)
      else (1, e)

/-- Total invocation count and surfaced error for an operation that fails on
every attempt with the error `e` under configuration `cfg`.  The fuel
`cfg.retry + 1` is never exhausted because shouldRetry is false once the
attempt count reaches `cfg.retry`. -/
def alwaysFailingRun (cfg : RaxCfg) (e : RErr) : Nat × RErr :=
  retryRunAux cfg e (cfg.retry + 1) 0

/-! Query preparation in getItems (src/lib/sharepoint.js lines 132-146 and
ListClient.getItems in src/lib/sharepoint/BaseClient.js). -/

/-- One element of the Select array actually sent to the request builder.
The rewrite `filter.Select = [...new Set([filter.Select])]` places the
caller's whole array inside the new array, so an element is either a plain
field name or the caller's original array of names. -/
inductive SelectEntry where
  | name (s : String)
  | group (l : List String)
deriving DecidableEq, Repr

/-- The field names a Select array mentions, flattening nested arrays. -/
def selectFields (sel : List SelectEntry) : List String :=
  (sel.map fun e => match e with
    | SelectEntry.name s => [s]
    | SelectEntry.group l => l).flatten

/-- A caller-supplied ODATA query for getItems: optional Top, Select and
Filter (fields absent from the JavaScript object are `none`). -/
structure SPQuery where
  top : Option Nat
  select : Option (List String)
  filter : Option String
deriving DecidableEq, Repr

/-- The query as issued to the request builder after getItems has prepared
it. -/
structure IssuedQuery where
  top : Nat
  select : Option (List SelectEntry)
  filter : Option String
deriving DecidableEq, Repr

/-- The Select rewrite in getItems: under the comment "ensure ID always in
select filter", when `filter.Select.length > 0` the code executes
`filter.Select = [...new Set([filter.Select])]`, i.e. the new Select is the
one-element array holding the caller's original array; nothing is appended.
An absent or empty Select is left as it is. -/
def issuedSelect : Option (List String) → Option (List SelectEntry)
  | none => none
  | some l =>
      if 0 < l.length then some [SelectEntry.group l]
      else some (l.map SelectEntry.name)

/-- Query preparation in getItems: `_.merge({}, {Top: default}, query)` (the
caller's Top wins when present; the default is 5000 in the module-level
getItems and 1000 in ListClient.getItems), then the Select rewrite. -/
def getItemsQuery (defaultTop : Nat) (q : SPQuery) : IssuedQuery :=
  { top := q.top.getD defaultTop
    select := issuedSelect q.select
    filter := q.filter }

/-! Record operations and upsert (src/lib/sharepoint.js and
src/lib/sharepoint/BaseClient.js). -/

/-- An outgoing request an operation issues against the list API, as built by
the gd-sprest request builder: an item add, an item update addressed by an
ID, an item delete, a read query (getItems / getFields / ContextInfo), a list
creation, or a field creation. -/
inductive Call where
  | add (body : Record)
  | update (id : JVal) (body : Record)
  | del (id : JVal)
  | query
  | listCreate (title : String)
  | fieldCreate
deriving DecidableEq, Repr

/-- What an upsert promise resolves with when it fulfils: the create call's
response, the update call's response, or JavaScript undefined (the
module-level upsertItem awaits its inner then-chain without returning it). -/
inductive UpResolution where
  | createResponse
  | updateResponse
  | undef
deriving DecidableEq, Repr

/-- The auth header set of a session context (`options.sharepoint.authheaders`
and the ListClient copy of it); only the write-authorization header matters
to the model.  `none` models the header being nil (absent or null). -/
structure AuthHeaders where
  xRequestDigest : Option String
deriving DecidableEq, Repr

/-- BaseClient._requireDigest: throws when
`authheaders['X-RequestDigest']` is nil, so that only READ operations are
possible until getContextInfo has stored a digest. -/
def requireDigest (h : AuthHeaders) : Except SPError Unit :=
  if h.xRequestDigest.isNone then Except.error SPError.authorization
  else Except.ok ()

/-- ListClient.createList: digest precondition, then one Lists().add request
carrying the configured list title.  The result pairs the requests issued with
the promise outcome; a precondition failure issues no request. -/
def ListClient.createList (h : AuthHeaders) (title : String) :
    List Call × Except SPError Unit :=
  match requireDigest h with
  | Except.error e => ([], Except.error e)
  | Except.ok _ => ([Call.listCreate title], Except.ok ())

/-- ListClient.addField: the digest precondition is checked inside the promise
executor, still ahead of any request; then the fields matching the title
filter are fetched (`existing` is that response's results) and the field is
created as XML only when no match exists, the fields response being resolved
otherwise.  Schema generation by the gd-sprest helper is treated as
succeeding. -/
def ListClient.addField (h : AuthHeaders) (existing : List Record) :
    List Call × Except SPError Unit :=
  match requireDigest h with
  | Except.error e => ([], Except.error e)
  | Except.ok _ =>
      if existing.length = 0 then ([Call.query, Call.fieldCreate], Except.ok ())
      else ([Call.query], Except.ok ())

/-- ListClient.addItem: digest precondition, nil-item check, then one
Items().add request with the item as body. -/
def ListClient.addItem (h : AuthHeaders) (item : Option Record) :
    List Call × Except SPError Unit :=
  match requireDigest h with
  | Except.error e => ([], Except.error e)
  | Except.ok _ =>
      match item with
      | none => ([], Except.error (SPError.validation "item not specified"))
      | some it => ([Call.add it], Except.ok ())

/-- ListClient.updateItem: digest precondition, nil-item check, and the check
`accessSafe(() => item.ID, null) == null` (an absent or null ID throws); then
one Items(item.ID).update request whose body is `_.omit(item, ['ID'])` — the
identity travels in the path, never in the body. -/
def ListClient.updateItem (h : AuthHeaders) (item : Option Record) :
    List Call × Except SPError Unit :=
  match requireDigest h with
  | Except.error e => ([], Except.error e)
  | Except.ok _ =>
      match item with
      | none => ([], Except.error (SPError.validation "item not specified"))
      | some it =>
          match it.getKey "ID" with
          | none => ([], Except.error (SPError.validation "No ID specified"))
          | some JVal.vnull => ([], Except.error (SPError.validation "No ID specified"))
          | some idv => ([Call.update idv (it.omitKeys ["ID"])], Except.ok ())

/-- ListClient.deleteItemById: digest precondition and nil-id check, then one
Items(itemid).delete request. -/
def ListClient.deleteItemById (h : AuthHeaders) (itemid : Option JVal) :
    List Call × Except SPError Unit :=
  match requireDigest h with
  | Except.error e => ([], Except.error e)
  | Except.ok _ =>
      match itemid with
      | none => ([], Except.error (SPError.validation "No ID specified"))
      | some idv => ([Call.del idv], Except.ok ())

/-- ListClient.upsertItem: digest precondition, then the Top-1 existence fetch
(whose results the oracle supplies as `matches`), then the dispatch.  Zero
matches: `addItem(_.omit(item, ['ID']))`, and the promise resolves with the
add response (the missing else afterwards evaluates `results[0].ID`, whose
TypeError rejects a promise that is already settled and prevents the update
branch from running).  One or more matches:
`updateitem = _.merge({}, { ID: results[0].ID }, item)` — the lodash merge
assigns the matched ID first and then every field of `item` over it, so a
candidate-supplied ID overrides the matched one, and a matched record whose
ID is absent contributes nothing (lodash merge skips undefined source
values) — followed by `updateItem(updateitem)`, which is addressed by
`updateitem.ID` and submits `_.omit(updateitem, ['ID'])`, after the null-ID
check.  `callResult` is the outcome of the add-or-update request issued. -/
def ListClient.upsertItem (h : AuthHeaders) (item : Record) (found : List Record)
    (callResult : Except SPError Unit) : List Call × Except SPError UpResolution :=
  match requireDigest h with
  | Except.error e => ([], Except.error e)
  | Except.ok _ =>
      if found.length = 0 then
        match callResult with
        | Except.ok _ =>
            ([Call.query, Call.add (item.omitKeys ["ID"])], Except.ok UpResolution.createResponse)
        | Except.error e =>
            ([Call.query, Call.add (item.omitKeys ["ID"])], Except.error e)
      else
        let matched := found.headD []
        let idPatch : Record :=
          match matched.getKey "ID" with
          | some v => [("ID", v)]
          | none => []
        let updateitem := Record.mergeR (Record.mergeR [] idPatch) item
        match updateitem.getKey "ID" with
        | none => ([Call.query], Except.error (SPError.validation "No ID specified"))
        | some JVal.vnull => ([Call.query], Except.error (SPError.validation "No ID specified"))
        | some idv =>
            match callResult with
            | Except.ok _ =>
                ([Call.query, Call.update idv (updateitem.omitKeys ["ID"])],
                  Except.ok UpResolution.updateResponse)
            | Except.error e =>
                ([Call.query, Call.update idv (updateitem.omitKeys ["ID"])], Except.error e)

/-- Module-level addItem (src/lib/sharepoint.js lines 227-233): builds the
Items().add request and issues it straight away; the module-level API has no
digest precondition, the auth headers are merely merged into the request
headers. -/
def FnApi.addItem (_h : AuthHeaders) (item : Record) : List Call × Except SPError Unit :=
  ([Call.add item], Except.ok ())

/-- Module-level upsertItem (src/lib/sharepoint.js lines 269-282): existence
fetch (results supplied as `matches`), then the same dispatch as
ListClient.upsertItem — addItem on `_.omit(item, ['ID'])` for zero matches,
updateItem on `_.merge({}, { ID: results[0].ID }, item)` otherwise (the
module-level updateItem throws when `item.ID == null`).  The inner then-chain
is awaited but its value is never returned, so whenever the chain fulfils the
function resolves with undefined. -/
def FnApi.upsertItem (item : Record) (found : List Record)
    (callResult : Except SPError Unit) : List Call × Except SPError UpResolution :=
  if found.length = 0 then
    match callResult with
    | Except.ok _ =>
        ([Call.query, Call.add (item.omitKeys ["ID"])], Except.ok UpResolution.undef)
    | Except.error e =>
        ([Call.query, Call.add (item.omitKeys ["ID"])], Except.error e)
  else
    let matched := found.headD []
    let idPatch : Record :=
      match matched.getKey "ID" with
      | some v => [("ID", v)]
      | none => []
    let updateitem := Record.mergeR (Record.mergeR [] idPatch) item
    match updateitem.getKey "ID" with
    | none => ([Call.query], Except.error (SPError.validation "No ID specified"))
    | some JVal.vnull => ([Call.query], Except.error (SPError.validation "No ID specified"))
    | some idv =>
        match callResult with
        | Except.ok _ =>
            ([Call.query, Call.update idv (updateitem.omitKeys ["ID"])],
              Except.ok UpResolution.undef)
        | Except.error e =>
            ([Call.query, Call.update idv (updateitem.omitKeys ["ID"])], Except.error e)

/-- JavaScript Promise.all as applied by the module-level upsertItems: it
fulfils with the array of all fulfilment values once every promise fulfils,
and rejects with the reason of a rejecting promise otherwise.  All promises
are already started when Promise.all is applied; settlement is modelled as
immediate, so the rejection surfaced is the first one in array order. -/
def promiseAll {α : Type} : List (Except SPError α) → Except SPError (List α)
  | [] => Except.ok []
  | Except.error e :: _ => Except.error e
  | Except.ok a :: rest => (promiseAll rest).map (fun l => a :: l)

/-- One record of a bulk upsert together with the server behaviour the oracle
assigns to it: the results of its existence fetch and the outcome of the
add-or-update request its upsert issues. -/
structure UpsertInput where
  item : Record
  found : List Record
  callResult : Except SPError Unit
deriving Repr

/-- Module-level upsertItems (src/lib/sharepoint.js lines 316-327): one
upsertItem promise is pushed per item (every record's upsert is initiated,
each with a filter built from the lookup fields) and the promises are
combined with Promise.all. -/
def FnApi.upsertItems (inputs : List UpsertInput) : Except SPError (List UpResolution) :=
  promiseAll (inputs.map fun i => (FnApi.upsertItem i.item i.found i.callResult).2)

/-! Context initialization (BaseClient.getContextInfo). -/

/-- The GetContextWebInformation object of a ContextInfo response body; the
FormDigestValue field may be absent. -/
structure ContextWebInformation where
  formDigestValue : Option String
deriving DecidableEq, Repr

/-- The body of a successful ContextInfo response
(`response.data.d`); the GetContextWebInformation object may be absent. -/
structure ContextInfoBody where
  getContextWebInformation : Option ContextWebInformation
deriving DecidableEq, Repr

/-- BaseClient.getContextInfo: issues the ContextInfo read; on success it
stores `accessSafe(() => response.data.d.GetContextWebInformation
.FormDigestValue, null)` as the X-RequestDigest auth header — a missing path
stores null rather than failing the call — and resolves with the response.
On transport failure the promise rejects and the headers are untouched. -/
def getContextInfo (h : AuthHeaders) (resp : Except SPError ContextInfoBody) :
    AuthHeaders × Except SPError Unit :=
  match resp with
  | Except.error e => (h, Except.error e)
  | Except.ok body =>
      ({ xRequestDigest := body.getContextWebInformation.bind fun g => g.formDigestValue },
        Except.ok ())

/-- The aggregate an all-successful getAllItems walk actually produces: a page
whose `__next` indicator is non-empty contributes its records with the last
one removed (consumed by the `allrecords.pop().ID` cursor derivation), the
final page contributes all of its records. -/
def walkAggregate (pages : List Page) : List Record :=
  (pages.map fun p => if morerecords p then p.results.dropLast else p.results).flatten

/-! Helper lemmas shared by the claim theorems. -/

/-- Unfolding lemma: an all-successful walk over non-final non-empty pages
followed by a final page resolves with the accumulator extended by the
aggregate the pop-based cursor derivation leaves behind. -/
theorem getAllItemsWalk_ok_of_pages (last : Page) (hlast : morerecords last = false) :
    ∀ (front : List Page) (acc : List Record),
      (∀ p ∈ front, morerecords p = true ∧ p.results ≠ []) →
      getAllItemsWalk acc ((front ++ [last]).map Except.ok)
        = Except.ok (acc ++ walkAggregate (front ++ [last])) := by
  intro front
  induction front with
  | nil =>
      intro acc _
      simp [getAllItemsWalk, walkAggregate, hlast]
  | cons p ps ih =>
      intro acc hfr
      obtain ⟨hmp, hne⟩ := hfr p (List.mem_cons_self p ps)
      have hne2 : ¬(acc ++ p.results = []) := fun hc => hne (List.append_eq_nil.mp hc).2
      have hstep : getAllItemsWalk acc (((p :: ps) ++ [last]).map Except.ok)
          = getAllItemsWalk (acc ++ p.results).dropLast ((ps ++ [last]).map Except.ok) := by
        show (if morerecords p then
                if acc ++ p.results = [] then Except.error SPError.typeError
                else getAllItemsWalk (acc ++ p.results).dropLast ((ps ++ [last]).map Except.ok)
              else Except.ok (acc ++ p.results))
            = getAllItemsWalk (acc ++ p.results).dropLast ((ps ++ [last]).map Except.ok)
        rw [if_pos hmp, if_neg hne2]
      rw [hstep, ih _ (fun q hq => hfr q (List.mem_cons_of_mem p hq)),
        List.dropLast_append_of_ne_nil acc hne]
      have hagg : walkAggregate ((p :: ps) ++ [last])
          = p.results.dropLast ++ walkAggregate (ps ++ [last]) := by
        simp [walkAggregate, hmp]
      rw [hagg, List.append_assoc]

/-- Unfolding lemma: a walk whose first responses are successful non-final
non-empty pages and whose next response is an error rejects with exactly that
error, whatever the accumulator holds. -/
theorem getAllItemsWalk_error_of_front (e : SPError) (rest : List (Except SPError Page)) :
    ∀ (front : List Page) (acc : List Record),
      (∀ p ∈ front, morerecords p = true ∧ p.results ≠ []) →
      getAllItemsWalk acc (front.map Except.ok ++ Except.error e :: rest)
        = Except.error e := by
  intro front
  induction front with
  | nil =>
      intro acc _
      simp [getAllItemsWalk]
  | cons p ps ih =>
      intro acc hfr
      obtain ⟨hmp, hne⟩ := hfr p (List.mem_cons_self p ps)
      have hne2 : ¬(acc ++ p.results = []) := fun hc => hne (List.append_eq_nil.mp hc).2
      have hstep : getAllItemsWalk acc ((p :: ps).map Except.ok ++ Except.error e :: rest)
          = getAllItemsWalk (acc ++ p.results).dropLast
              (ps.map Except.ok ++ Except.error e :: rest) := by
        show (if morerecords p then
                if acc ++ p.results = [] then Except.error SPError.typeError
                else getAllItemsWalk (acc ++ p.results).dropLast
                  (ps.map Except.ok ++ Except.error e :: rest)
              else Except.ok (acc ++ p.results))
            = getAllItemsWalk (acc ++ p.results).dropLast
                (ps.map Except.ok ++ Except.error e :: rest)
        rw [if_pos hmp, if_neg hne2]
      rw [hstep]
      exact ih _ (fun q hq => hfr q (List.mem_cons_of_mem p hq))

/-- Promise.all over a block of fulfilled promises followed by a rejection
rejects with that first rejection. -/
theorem promiseAll_first_error {α : Type} (e : SPError) (post : List (Except SPError α)) :
    ∀ pre : List (Except SPError α),
      (∀ x ∈ pre, ∃ v, x = Except.ok v) →
      promiseAll (pre ++ Except.error e :: post) = Except.error e := by
  intro pre
  induction pre with
  | nil => intro _; simp [promiseAll]
  | cons x xs ih =>
      intro hpre
      obtain ⟨v, hv⟩ := hpre x (List.mem_cons_self x xs)
      subst hv
      have hxs := ih (fun y hy => hpre y (List.mem_cons_of_mem _ hy))
      calc promiseAll ((Except.ok v :: xs) ++ Except.error e :: post)
          = (promiseAll (xs ++ Except.error e :: post)).map (fun l => v :: l) := rfl
        _ = (Except.error e : Except SPError (List α)).map (fun l => v :: l) := by rw [hxs]
        _ = Except.error e := rfl

/-- Assigning a key that is fresh for the record appends the pair. -/
theorem setKey_fresh (a : Record) (k : String) (v : JVal)
    (h : ∀ p ∈ a, p.1 ≠ k) : a.setKey k v = a ++ [(k, v)] := by
  unfold Record.setKey
  have : a.any (fun kv => kv.1 = k) = false := by
    rw [Bool.eq_false_iff]
    intro hc
    obtain ⟨p, hp, hpk⟩ := List.any_eq_true.mp hc
    exact h p hp (by simpa using hpk)
  simp [this]

/-- Merging a record whose keys are pairwise distinct and all fresh for the
target appends it. -/
theorem mergeR_fresh : ∀ (b a : Record),
    (∀ kv ∈ b, ∀ p ∈ a, p.1 ≠ kv.1) → (b.map Prod.fst).Nodup →
    Record.mergeR a b = a ++ b := by
  intro b
  induction b with
  | nil => intro a _ _; simp [Record.mergeR]
  | cons kv bs ih =>
      intro a hfresh hnd
      rw [List.map_cons, List.nodup_cons] at hnd
      have hset : a.setKey kv.1 kv.2 = a ++ [kv] := by
        have h1 := setKey_fresh a kv.1 kv.2 (fun p hp => hfresh kv (List.mem_cons_self kv bs) p hp)
        simpa using h1
      have hfresh2 : ∀ kv2 ∈ bs, ∀ p ∈ a ++ [kv], p.1 ≠ kv2.1 := by
        intro kv2 h2 p hp
        rcases List.mem_append.mp hp with hpa | hpk
        · exact hfresh kv2 (List.mem_cons_of_mem kv h2) p hpa
        · have hpe : p = kv := by simpa using hpk
          subst hpe
          intro hcontra
          exact hnd.1 (by rw [hcontra]; exact List.mem_map_of_mem Prod.fst h2)
      have hrec : Record.mergeR (a ++ [kv]) bs = (a ++ [kv]) ++ bs :=
        ih (a ++ [kv]) hfresh2 hnd.2
      calc Record.mergeR a (kv :: bs)
          = Record.mergeR (a.setKey kv.1 kv.2) bs := rfl
        _ = Record.mergeR (a ++ [kv]) bs := by rw [hset]
        _ = (a ++ [kv]) ++ bs := hrec
        _ = a ++ kv :: bs := by simp

/-! Claim theorems. -/

/-- C1 counterexample: a two-page walk — page one holds records with IDs 1
and 2 and carries a non-empty next-page indicator, page two holds the record
with ID 3 and is final — resolves with only the records 1 and 3: the
aggregate is not the concatenation of the two pages, record 2 is lost. -/
theorem C1_pop_loses_record_counterexample :
    getAllItems [Except.ok ⟨[[("ID", JVal.vnum 1)], [("ID", JVal.vnum 2)]], some "next"⟩,
                 Except.ok ⟨[[("ID", JVal.vnum 3)]], none⟩]
      = Except.ok [[("ID", JVal.vnum 1)], [("ID", JVal.vnum 3)]]
    ∧ ([[("ID", JVal.vnum 1)], [("ID", JVal.vnum 3)]] : List Record)
        ≠ [[("ID", JVal.vnum 1)], [("ID", JVal.vnum 2)], [("ID", JVal.vnum 3)]] :=
  ⟨rfl, by decide⟩

/-- C1 (amended): on an all-successful walk in which every non-final page has
a non-empty next-page indicator and a non-empty results array and the final
page has an empty indicator, getAllItems resolves with the concatenation of
the pages' records in page order except that the last record of every
non-final page is removed (consumed by the pop-based cursor derivation), so
the aggregate count is the sum of the page counts minus the number of
non-final pages. -/
theorem C1_walk_aggregate_amended (front : List Page) (last : Page)
    (hfr : ∀ p ∈ front, morerecords p = true ∧ p.results ≠ [])
    (hlast : morerecords last = false) :
    getAllItems ((front ++ [last]).map Except.ok)
      = Except.ok (walkAggregate (front ++ [last])) := by
  have := getAllItemsWalk_ok_of_pages last hlast front [] hfr
  simpa [getAllItems] using this

/-- Witness for C1 (amended) at a concrete two-page walk. -/
theorem C1_walk_aggregate_amended_witness :
    getAllItems ((([⟨[[("ID", JVal.vnum 1)], [("ID", JVal.vnum 2)]], some "next"⟩] : List Page)
        ++ ([⟨[[("ID", JVal.vnum 3)]], none⟩] : List Page)).map Except.ok)
      = Except.ok (walkAggregate (([⟨[[("ID", JVal.vnum 1)], [("ID", JVal.vnum 2)]],
          some "next"⟩] : List Page) ++ ([⟨[[("ID", JVal.vnum 3)]], none⟩] : List Page))) :=
  C1_walk_aggregate_amended _ _ (by decide) (by decide)

/-- C2 counterexample: a bulk upsert of two records in which the first
record's upsert fulfils and the second record's create call fails rejects as
a whole with that single error — no per-record outcome report is produced,
even though a sibling succeeded. -/
theorem C2_promise_all_counterexample :
    FnApi.upsertItems [⟨[("Title", JVal.vstr "a")], [], Except.ok ()⟩,
                       ⟨[("Title", JVal.vstr "b")], [], Except.error (SPError.http 500)⟩]
      = Except.error (SPError.http 500) := rfl

/-- C2 (amended): the batch rejects with the error of the first failing
record's upsert whenever any record's upsert rejects; every record's upsert
is still initiated, but sibling outcomes are not reported — the Promise.all
combination only reports per-record responses when every record succeeds. -/
theorem C2_batch_rejects_with_first_failure_amended (pre post : List UpsertInput)
    (bad : UpsertInput) (e : SPError)
    (hpre : ∀ i ∈ pre, ∃ v, (FnApi.upsertItem i.item i.found i.callResult).2 = Except.ok v)
    (hbad : (FnApi.upsertItem bad.item bad.found bad.callResult).2 = Except.error e) :
    FnApi.upsertItems (pre ++ bad :: post) = Except.error e := by
  unfold FnApi.upsertItems
  rw [List.map_append, List.map_cons, hbad]
  refine promiseAll_first_error e _ _ ?_
  intro x hx
  obtain ⟨i, hi, hxi⟩ := List.mem_map.mp hx
  obtain ⟨v, hv⟩ := hpre i hi
  exact ⟨v, by rw [← hxi, hv]⟩

/-- Witness for C2 (amended): one fulfilled record ahead of one failing
record. -/
theorem C2_batch_rejects_with_first_failure_amended_witness :
    FnApi.upsertItems ([⟨[("Title", JVal.vstr "a")], [], Except.ok ()⟩]
        ++ ⟨[("Title", JVal.vstr "b")], [], Except.error (SPError.http 500)⟩ :: [])
      = Except.error (SPError.http 500) :=
  C2_batch_rejects_with_first_failure_amended _ _ _ _
    (by
      intro i hi
      have : i = ⟨[("Title", JVal.vstr "a")], [], Except.ok ()⟩ := by
        simpa using hi
      subst this
      exact ⟨UpResolution.undef, rfl⟩)
    rfl

/-- C3: the shouldRetry callback stops retrying at attempt count 2 under the
shipped configuration (retry 3, noResponseRetries 2) even for an error that
carries a server response and that the generic classification rules
retryable, although the attempt count is still below the maxRetries cap —
the stricter cap is applied to every failure, not only to no-response
failures. -/
theorem C3_noResponseCap_stops_response_errors :
    shouldRetry raxDefault 2 ⟨true, false, true, 500⟩ = false
    ∧ RErr.hasResponse ⟨true, false, true, 500⟩ = true
    ∧ shouldRetryRequest ⟨true, false, true, 500⟩ = true
    ∧ 2 < raxDefault.retry := by decide

/-- C4: under the shipped configuration maxRetries = 3, an operation failing
on every attempt with a response-carrying retryable error is invoked 3 times
in total — not maxRetries + 1 = 4 — because the noResponseRetries cap of 2
also stops response-carrying errors; the surfaced error is the operation's
own error unchanged. -/
theorem C4_invocation_count_at_default_config :
    alwaysFailingRun raxDefault ⟨true, false, true, 500⟩ = (3, ⟨true, false, true, 500⟩)
    ∧ (3 : Nat) ≠ raxDefault.retry + 1 := by decide

/-- C5 counterexample: upserting the candidate record {ID: 5, Title: "x"}
when the existence fetch returns exactly one match whose ID is 3 issues an
update addressed by the candidate's own ID 5 — the lodash merge lets the
candidate's ID override the matched identity — not by the matched ID 3. -/
theorem C5_candidate_id_overrides_matched_counterexample :
    ListClient.upsertItem ⟨some "digest"⟩ [("ID", JVal.vnum 5), ("Title", JVal.vstr "x")]
        [[("ID", JVal.vnum 3)]] (Except.ok ())
      = ([Call.query, Call.update (JVal.vnum 5) [("Title", JVal.vstr "x")]],
          Except.ok UpResolution.updateResponse)
    ∧ JVal.vnum 5 ≠ JVal.vnum 3 :=
  ⟨rfl, by decide⟩

/-- C5 (amended): when the existence fetch returns exactly one match and the
candidate record carries no ID of its own (and has well-formed, pairwise
distinct keys), upsertItem issues no create call but exactly the existence
query followed by one update addressed by the matched record's (non-null) ID
whose body is exactly the candidate record (candidate fields override the
only merged matched field, the identity, and the identity is stripped from
the body); the class method resolves with the update response while the
module-level function resolves with undefined.  A candidate-supplied ID
would override the matched identity instead. -/
theorem C5_update_addressed_by_matched_id_amended (d : String) (item m : Record)
    (n : Int) (hid : ∀ kv ∈ item, kv.1 ≠ "ID") (hnd : (item.map Prod.fst).Nodup)
    (hm : m.getKey "ID" = some (JVal.vnum n)) :
    ListClient.upsertItem ⟨some d⟩ item [m] (Except.ok ())
      = ([Call.query, Call.update (JVal.vnum n) item], Except.ok UpResolution.updateResponse)
    ∧ FnApi.upsertItem item [m] (Except.ok ())
      = ([Call.query, Call.update (JVal.vnum n) item], Except.ok UpResolution.undef) := by
  have hmerge : Record.mergeR (Record.mergeR [] [("ID", JVal.vnum n)]) item
      = ("ID", JVal.vnum n) :: item := by
    have h1 : Record.mergeR [] [("ID", JVal.vnum n)] = [("ID", JVal.vnum n)] := rfl
    rw [h1, mergeR_fresh item [("ID", JVal.vnum n)]
      (fun kv hkv p hp => by
        have : p = ("ID", JVal.vnum n) := by simpa using hp
        subst this
        exact fun hc => hid kv hkv (hc ▸ rfl)) hnd]
    rfl
  have hgetid : (Record.mergeR (Record.mergeR [] [("ID", JVal.vnum n)]) item).getKey "ID"
      = some (JVal.vnum n) := by
    rw [hmerge]
    simp [Record.getKey]
  have homit : (Record.mergeR (Record.mergeR [] [("ID", JVal.vnum n)]) item).omitKeys ["ID"]
      = item := by
    rw [hmerge]
    unfold Record.omitKeys
    rw [List.filter_cons_of_neg (by simp)]
    exact List.filter_eq_self.mpr (fun kv hkv => by
      simpa using hid kv hkv)
  constructor
  · unfold ListClient.upsertItem requireDigest
    simp only [Option.isNone_some, Bool.false_eq_true, if_false, List.length_cons,
      List.length_nil, Nat.add_eq, if_neg (by omega : ¬ (0 + 1 = 0)), List.headD_cons, hm]
    rw [hgetid, homit]
  · unfold FnApi.upsertItem
    simp only [List.length_cons, List.length_nil, Nat.add_eq,
      if_neg (by omega : ¬ (0 + 1 = 0)), List.headD_cons, hm]
    rw [hgetid, homit]

/-- Witness for C5 (amended): candidate {Title: "x"} against a single match
with ID 3. -/
theorem C5_update_addressed_by_matched_id_amended_witness :
    ListClient.upsertItem ⟨some "digest"⟩ [("Title", JVal.vstr "x")]
        [[("ID", JVal.vnum 3)]] (Except.ok ())
      = ([Call.query, Call.update (JVal.vnum 3) [("Title", JVal.vstr "x")]],
          Except.ok UpResolution.updateResponse)
    ∧ FnApi.upsertItem [("Title", JVal.vstr "x")] [[("ID", JVal.vnum 3)]] (Except.ok ())
      = ([Call.query, Call.update (JVal.vnum 3) [("Title", JVal.vstr "x")]],
          Except.ok UpResolution.undef) :=
  C5_update_addressed_by_matched_id_amended "digest" _ _ 3 (by decide) (by decide) rfl

/-- C6: at the failing input — candidate {ID: 1, Title: "x"}, zero matches,
a succeeding create call — the module-level upsertItem issues exactly the
existence query and one create whose body has the ID stripped, issues no
update call, but resolves with undefined rather than the create call's
response (its inner then-chain is awaited without being returned); the class
method ListClient.upsertItem on the same input does resolve with the create
response. -/
theorem C6_create_resolves_undefined :
    FnApi.upsertItem [("ID", JVal.vnum 1), ("Title", JVal.vstr "x")] [] (Except.ok ())
      = ([Call.query, Call.add [("Title", JVal.vstr "x")]], Except.ok UpResolution.undef)
    ∧ UpResolution.undef ≠ UpResolution.createResponse
    ∧ ListClient.upsertItem ⟨some "digest"⟩ [("ID", JVal.vnum 1), ("Title", JVal.vstr "x")]
        [] (Except.ok ())
      = ([Call.query, Call.add [("Title", JVal.vstr "x")]],
          Except.ok UpResolution.createResponse) :=
  ⟨rfl, by decide, rfl⟩

/-- C7: the query actually issued for the caller query {Select: ["Title"]}
carries the Select array [["Title"]] — the rewrite wraps the caller's array
in a new array instead of appending "ID" — so the issued projection does not
include the identity field ID, contradicting the comment "ensure ID always
in select filter". -/
theorem C7_select_rewrite_omits_id :
    getItemsQuery 1000 ⟨none, some ["Title"], none⟩
      = { top := 1000, select := some [SelectEntry.group ["Title"]], filter := none }
    ∧ getItemsQuery 5000 ⟨none, some ["Title"], none⟩
      = { top := 5000, select := some [SelectEntry.group ["Title"]], filter := none }
    ∧ "ID" ∉ selectFields [SelectEntry.group ["Title"]] :=
  ⟨rfl, rfl, by decide⟩

/-- C8 counterexample: the module-level addItem invoked on a session whose
X-RequestDigest header is unset still issues the Items().add network request
and fulfils — it has no authorization gate, so not every mutating operation
of the system fails fast without a network call. -/
theorem C8_module_addItem_not_gated_counterexample :
    FnApi.addItem ⟨none⟩ [("Title", JVal.vstr "x")]
      = ([Call.add [("Title", JVal.vstr "x")]], Except.ok ())
    ∧ ([Call.add [("Title", JVal.vstr "x")]] : List Call) ≠ [] :=
  ⟨rfl, by decide⟩

/-- C8 (amended): every mutating method of ListClient — createList, addField,
addItem, updateItem, deleteItemById and upsertItem — invoked on a session
whose X-RequestDigest header is unset fails immediately with the
authorization error and issues no network request; the module-level
functions of sharepoint.js perform no such check. -/
theorem C8_listclient_mutations_fail_fast_amended (title : String)
    (existing : List Record) (item : Record) (itemid : JVal)
    (found : List Record) (r : Except SPError Unit) :
    ListClient.createList ⟨none⟩ title = ([], Except.error SPError.authorization)
    ∧ ListClient.addField ⟨none⟩ existing = ([], Except.error SPError.authorization)
    ∧ ListClient.addItem ⟨none⟩ (some item) = ([], Except.error SPError.authorization)
    ∧ ListClient.updateItem ⟨none⟩ (some item) = ([], Except.error SPError.authorization)
    ∧ ListClient.deleteItemById ⟨none⟩ (some itemid) = ([], Except.error SPError.authorization)
    ∧ ListClient.upsertItem ⟨none⟩ item found r = ([], Except.error SPError.authorization) :=
  ⟨rfl, rfl, rfl, rfl, rfl, rfl⟩

/-- C9: a walk whose first responses are successful non-final pages (each
with a non-empty next indicator and non-empty results) and whose next page
fetch fails rejects with exactly that underlying error: no partial aggregate
of the records already accumulated is surfaced in any form. -/
theorem C9_page_failure_rejects_walk (front : List Page) (e : SPError)
    (rest : List (Except SPError Page))
    (hfr : ∀ p ∈ front, morerecords p = true ∧ p.results ≠ []) :
    getAllItems (front.map Except.ok ++ Except.error e :: rest) = Except.error e :=
  getAllItemsWalk_error_of_front e rest front [] hfr

/-- Witness for C9: one successful page followed by a failing fetch. -/
theorem C9_page_failure_rejects_walk_witness :
    getAllItems (([⟨[[("ID", JVal.vnum 1)]], some "next"⟩] : List Page).map Except.ok
        ++ Except.error (SPError.http 503) :: []) = Except.error (SPError.http 503) :=
  C9_page_failure_rejects_walk _ _ _ (by decide)

/-- C10: a successful getContextInfo response whose body yields no
GetContextWebInformation.FormDigestValue still resolves successfully, stores
null (none) as the X-RequestDigest header, and leaves the session read-only:
the digest precondition fails and a subsequent mutating call such as
ListClient.addItem fails with the authorization error without a network
request. -/
theorem C10_missing_digest_resolves_readonly (h : AuthHeaders) (body : ContextInfoBody)
    (item : Record)
    (hmiss : (body.getContextWebInformation.bind fun g => g.formDigestValue) = none) :
    (getContextInfo h (Except.ok body)).2 = Except.ok ()
    ∧ (getContextInfo h (Except.ok body)).1.xRequestDigest = none
    ∧ requireDigest (getContextInfo h (Except.ok body)).1 = Except.error SPError.authorization
    ∧ ListClient.addItem (getContextInfo h (Except.ok body)).1 (some item)
        = ([], Except.error SPError.authorization) := by
  refine ⟨rfl, by simp [getContextInfo, hmiss], ?_, ?_⟩
  · simp [getContextInfo, requireDigest, hmiss]
  · unfold ListClient.addItem
    simp [getContextInfo, requireDigest, hmiss]

/-- Witness for C10: a body whose GetContextWebInformation object lacks the
FormDigestValue field. -/
theorem C10_missing_digest_resolves_readonly_witness :
    (getContextInfo ⟨some "old"⟩ (Except.ok ⟨some ⟨none⟩⟩)).2 = Except.ok ()
    ∧ (getContextInfo ⟨some "old"⟩ (Except.ok ⟨some ⟨none⟩⟩)).1.xRequestDigest = none
    ∧ requireDigest (getContextInfo ⟨some "old"⟩ (Except.ok ⟨some ⟨none⟩⟩)).1
        = Except.error SPError.authorization
    ∧ ListClient.addItem (getContextInfo ⟨some "old"⟩ (Except.ok ⟨some ⟨none⟩⟩)).1 (some [])
        = ([], Except.error SPError.authorization) :=
  C10_missing_digest_resolves_readonly ⟨some "old"⟩ ⟨some ⟨none⟩⟩ [] rfl

end SPListManager
